import Mathlib

/-!
Shallow embedding of `src/types.rs` of the `pwm-pca9685` driver crate,
together with theorems settling the specification claims about the
device-identity and type model: the slave-address resolver
`SlaveAddr::addr`, the `Channel` enumeration and the `Error` taxonomy.

Machine bytes (`u8`) are modelled as `Nat` values below 256; the Rust
shift `(b as u8) << k` is modelled with an explicit wrap at 2^8 so the
embedding is faithful to `u8` arithmetic even where no wrap can occur.
-/

namespace Pca9685Types

/-- Rust `b as u8` for a `bool` value: `true` maps to 1, `false` to 0. -/
def boolToU8 (b : Bool) : Nat := if b then 1 else 0

/-- Rust `<<` on `u8`: shift left, keeping only the low 8 bits. -/
def u8shl (x n : Nat) : Nat := (x <<< n) % 256

/-- Mirror of the crate error enum `Error<E>`: an I2C bus error wrapping
the transport error type, or invalid input data. -/
inductive Error (E : Type) where
  | I2C (e : E)
  | InvalidInputData
deriving DecidableEq

/-- Mirror of the `Channel` enum: sixteen output channels plus `All`. -/
inductive Channel where
  | C0
  | C1
  | C2
  | C3
  | C4
  | C5
  | C6
  | C7
  | C8
  | C9
  | C10
  | C11
  | C12
  | C13
  | C14
  | C15
  | All
deriving DecidableEq, Fintype

/-- Mirror of the `OutputLogicState` enum. -/
inductive OutputLogicState where
  | Direct
  | Inverted
deriving DecidableEq

/-- Mirror of the `SlaveAddr` enum: the factory address, or an
alternative address carrying strap bits A5, A4, A3, A2, A1, A0. -/
inductive SlaveAddr where
  | Default
  | Alternative (a5 a4 a3 a2 a1 a0 : Bool)
deriving DecidableEq

/-- Embedding of `SlaveAddr::addr(self, default: u8) -> u8`: the default
base is returned unchanged, while an alternative address ORs each strap
bit, shifted to its position, into the base. -/
def SlaveAddr.addr (self : SlaveAddr) (base : Nat) : Nat :=
  match self with
  | SlaveAddr.Default => base
  | SlaveAddr.Alternative a5 a4 a3 a2 a1 a0 =>
      base
        ||| u8shl (boolToU8 a5) 5
        ||| u8shl (boolToU8 a4) 4
        ||| u8shl (boolToU8 a3) 3
        ||| u8shl (boolToU8 a2) 2
        ||| u8shl (boolToU8 a1) 1
        ||| boolToU8 a0

/-- The strap-bit mask an alternative address ORs into the base. -/
def strapMask (a5 a4 a3 a2 a1 a0 : Bool) : Nat :=
  u8shl (boolToU8 a5) 5
    ||| u8shl (boolToU8 a4) 4
    ||| u8shl (boolToU8 a3) 3
    ||| u8shl (boolToU8 a2) 2
    ||| u8shl (boolToU8 a1) 1
    ||| boolToU8 a0

/-- The strap bit an alternative address designates for bit position i:
a0 at 0 up to a5 at 5, false above. -/
def strapBit (a5 a4 a3 a2 a1 a0 : Bool) : Nat → Bool
  | 0 => a0
  | 1 => a1
  | 2 => a2
  | 3 => a3
  | 4 => a4
  | 5 => a5
  | _ => false

lemma addr_alternative_eq (a5 a4 a3 a2 a1 a0 : Bool) (base : Nat) :
    (SlaveAddr.Alternative a5 a4 a3 a2 a1 a0).addr base
      = base ||| strapMask a5 a4 a3 a2 a1 a0 := by
  simp [SlaveAddr.addr, strapMask, Nat.lor_assoc]

lemma strapMask_le (a5 a4 a3 a2 a1 a0 : Bool) :
    strapMask a5 a4 a3 a2 a1 a0 ≤ 63 := by
  cases a5 <;> cases a4 <;> cases a3 <;> cases a2 <;> cases a1 <;> cases a0 <;> decide

lemma strapMask_testBit (a5 a4 a3 a2 a1 a0 : Bool) (i : Nat) :
    (strapMask a5 a4 a3 a2 a1 a0).testBit i = strapBit a5 a4 a3 a2 a1 a0 i := by
  rcases Nat.lt_or_ge i 6 with h | h
  · interval_cases i <;>
      cases a5 <;> cases a4 <;> cases a3 <;> cases a2 <;> cases a1 <;> cases a0 <;> decide
  · obtain ⟨j, rfl⟩ : ∃ j, i = j + 6 := ⟨i - 6, by omega⟩
    have hlt : strapMask a5 a4 a3 a2 a1 a0 < 2 ^ (j + 6) := by
      calc strapMask a5 a4 a3 a2 a1 a0 ≤ 63 := strapMask_le a5 a4 a3 a2 a1 a0
        _ < 2 ^ 6 := by decide
        _ ≤ 2 ^ (j + 6) := Nat.pow_le_pow_right (by decide) (by omega)
    rw [Nat.testBit_lt_two_pow hlt]
    rfl

/-- C1: for every base byte and every strap six-tuple, the alternative
slave address ORs each strap bit into its designated position (bit 5
from a5, bit 4 from a4, bit 3 from a3, bit 2 from a2, bit 1 from a1,
bit 0 from a0), and bits 6 and 7 of the base are unchanged. -/
theorem spec_c1_alternative_or_bits (base : Nat) (hb : base < 256)
    (a5 a4 a3 a2 a1 a0 : Bool) :
    (((SlaveAddr.Alternative a5 a4 a3 a2 a1 a0).addr base).testBit 5 = (a5 || base.testBit 5))
    ∧ (((SlaveAddr.Alternative a5 a4 a3 a2 a1 a0).addr base).testBit 4 = (a4 || base.testBit 4))
    ∧ (((SlaveAddr.Alternative a5 a4 a3 a2 a1 a0).addr base).testBit 3 = (a3 || base.testBit 3))
    ∧ (((SlaveAddr.Alternative a5 a4 a3 a2 a1 a0).addr base).testBit 2 = (a2 || base.testBit 2))
    ∧ (((SlaveAddr.Alternative a5 a4 a3 a2 a1 a0).addr base).testBit 1 = (a1 || base.testBit 1))
    ∧ (((SlaveAddr.Alternative a5 a4 a3 a2 a1 a0).addr base).testBit 0 = (a0 || base.testBit 0))
    ∧ (((SlaveAddr.Alternative a5 a4 a3 a2 a1 a0).addr base).testBit 6 = base.testBit 6)
    ∧ (((SlaveAddr.Alternative a5 a4 a3 a2 a1 a0).addr base).testBit 7 = base.testBit 7) := by
  refine ⟨?_, ?_, ?_, ?_, ?_, ?_, ?_, ?_⟩ <;>
    rw [addr_alternative_eq, Nat.testBit_or, strapMask_testBit] <;>
    simp [strapBit, Bool.or_comm]

/-- Witness for C1 at base 64 with straps (true,false,true,false,true,false). -/
theorem spec_c1_witness :
    ((SlaveAddr.Alternative true false true false true false).addr 64).testBit 5
      = (true || (64 : Nat).testBit 5) :=
  (spec_c1_alternative_or_bits 64 (by decide) true false true false true false).1

/-- C2 counterexample: at base 65 with all straps false, bit 0 of the
resolved address is true, not the strap value false: the resolver ORs
strap bits into the base, it does not overwrite the base's low bits. -/
theorem spec_c2_counterexample :
    ¬ (((SlaveAddr.Alternative false false false false false false).addr 65).testBit 0 = false) := by
  decide

/-- C2 (amended): for every base byte and strap six-tuple, bit i of the
resolved address for i at most 5 equals the OR of the designated strap
bit with bit i of the base, and every bit above position 5 is unchanged
from the base. -/
theorem spec_c2_amended_bits (base : Nat) (hb : base < 256)
    (a5 a4 a3 a2 a1 a0 : Bool) :
    (∀ i, i ≤ 5 →
      ((SlaveAddr.Alternative a5 a4 a3 a2 a1 a0).addr base).testBit i
        = (strapBit a5 a4 a3 a2 a1 a0 i || base.testBit i))
    ∧ (∀ i, 5 < i →
      ((SlaveAddr.Alternative a5 a4 a3 a2 a1 a0).addr base).testBit i = base.testBit i) := by
  constructor
  · intro i hi
    rw [addr_alternative_eq, Nat.testBit_or, strapMask_testBit, Bool.or_comm]
  · intro i hi
    rw [addr_alternative_eq, Nat.testBit_or, strapMask_testBit]
    have hfalse : strapBit a5 a4 a3 a2 a1 a0 i = false := by
      obtain ⟨j, rfl⟩ : ∃ j, i = j + 6 := ⟨i - 6, by omega⟩
      rfl
    rw [hfalse, Bool.or_false]

/-- Witness for C2 (amended) at base 64, all straps true, bit 3. -/
theorem spec_c2_witness :
    ((SlaveAddr.Alternative true true true true true true).addr 64).testBit 3
      = (strapBit true true true true true true 3 || (64 : Nat).testBit 3) :=
  (spec_c2_amended_bits 64 (by decide) true true true true true true).1 3 (by decide)

/-- C3: resolving with the default slave address is the identity on the
base address. -/
theorem spec_c3_default_identity (base : Nat) :
    SlaveAddr.Default.addr base = base := rfl

/-- C4: for every base in [0, 127] and every slave-address mode, the
resolved address stays in [0, 127]. -/
theorem spec_c4_seven_bit (base : Nat) (hb : base ≤ 127) (m : SlaveAddr) :
    m.addr base ≤ 127 := by
  cases m with
  | Default => exact hb
  | Alternative a5 a4 a3 a2 a1 a0 =>
      rw [addr_alternative_eq]
      have e : (2 : Nat) ^ 7 = 128 := by norm_num
      have h1 : base < 2 ^ 7 := by omega
      have h2 : strapMask a5 a4 a3 a2 a1 a0 < 2 ^ 7 := by
        have := strapMask_le a5 a4 a3 a2 a1 a0
        omega
      have := Nat.or_lt_two_pow h1 h2
      omega

/-- Witness for C4 at base 64 with all straps true. -/
theorem spec_c4_witness :
    (SlaveAddr.Alternative true true true true true true).addr 64 ≤ 127 :=
  spec_c4_seven_bit 64 (by decide) (SlaveAddr.Alternative true true true true true true)

/-- C5: the six concrete scenarios at base 0b100_0000 hold, and for
every base, all six straps true resolve to the base OR 0b0011_1111. -/
theorem spec_c5_concrete_scenarios :
    (SlaveAddr.Alternative false false false false false false).addr 0b1000000 = 0b1000000
    ∧ (SlaveAddr.Alternative false false false false false true).addr 0b1000000 = 0b1000001
    ∧ (SlaveAddr.Alternative false false false false true false).addr 0b1000000 = 0b1000010
    ∧ (SlaveAddr.Alternative false false false true false false).addr 0b1000000 = 0b1000100
    ∧ (SlaveAddr.Alternative false false true false false false).addr 0b1000000 = 0b1001000
    ∧ (SlaveAddr.Alternative true true true true true true).addr 0b1000000 = 0b1111111
    ∧ ∀ base : Nat,
        (SlaveAddr.Alternative true true true true true true).addr base = base ||| 0b111111 := by
  refine ⟨by decide, by decide, by decide, by decide, by decide, by decide, ?_⟩
  intro base
  rw [addr_alternative_eq]
  have hm : strapMask true true true true true true = 63 := by decide
  rw [hm]

/-- C6: the resolver is total on bytes and the bool-to-byte shifts by at
most 5 positions never overflow: every resolved address of a byte base
is again a byte, and the wrapped u8 shift agrees with the plain shift,
whose value stays below 256. -/
theorem spec_c6_total_no_overflow :
    (∀ (m : SlaveAddr) (base : Nat), base < 256 → m.addr base < 256)
    ∧ (∀ (a : Bool) (k : Nat), k ≤ 5 →
        u8shl (boolToU8 a) k = boolToU8 a <<< k ∧ boolToU8 a <<< k < 256) := by
  constructor
  · intro m base hb
    cases m with
    | Default => exact hb
    | Alternative a5 a4 a3 a2 a1 a0 =>
        rw [addr_alternative_eq]
        have e : (2 : Nat) ^ 8 = 256 := by norm_num
        have h1 : base < 2 ^ 8 := by omega
        have h2 : strapMask a5 a4 a3 a2 a1 a0 < 2 ^ 8 := by
          have := strapMask_le a5 a4 a3 a2 a1 a0
          omega
        have := Nat.or_lt_two_pow h1 h2
        omega
  · intro a k hk
    cases a <;> interval_cases k <;> exact ⟨by decide, by decide⟩

/-- Witness for C6 at base 255 with all straps true, and the shift of a
true strap by 5. -/
theorem spec_c6_witness :
    (SlaveAddr.Alternative true true true true true true).addr 255 < 256
    ∧ u8shl (boolToU8 true) 5 = boolToU8 true <<< 5 :=
  ⟨spec_c6_total_no_overflow.1 (SlaveAddr.Alternative true true true true true true) 255
      (by decide),
    (spec_c6_total_no_overflow.2 true 5 (by decide)).1⟩

/-- C7: the Channel type has exactly 17 values, and the All broadcast
variant is distinct from each of the sixteen individual channels. -/
theorem spec_c7_channel_closed_seventeen :
    Fintype.card Channel = 17
    ∧ Channel.All ≠ Channel.C0 ∧ Channel.All ≠ Channel.C1
    ∧ Channel.All ≠ Channel.C2 ∧ Channel.All ≠ Channel.C3
    ∧ Channel.All ≠ Channel.C4 ∧ Channel.All ≠ Channel.C5
    ∧ Channel.All ≠ Channel.C6 ∧ Channel.All ≠ Channel.C7
    ∧ Channel.All ≠ Channel.C8 ∧ Channel.All ≠ Channel.C9
    ∧ Channel.All ≠ Channel.C10 ∧ Channel.All ≠ Channel.C11
    ∧ Channel.All ≠ Channel.C12 ∧ Channel.All ≠ Channel.C13
    ∧ Channel.All ≠ Channel.C14 ∧ Channel.All ≠ Channel.C15 := by
  decide

/-- C8: for every transport error type and value, the I2C-wrapping
variant and the invalid-input variant of the error type are both
representable and never equal. -/
theorem spec_c8_error_variants (E : Type) (e : E) :
    Error.I2C e ≠ (Error.InvalidInputData : Error E)
    ∧ (Error.InvalidInputData : Error E) ≠ Error.I2C e :=
  ⟨fun h => Error.noConfusion h, fun h => Error.noConfusion h⟩

/-- C9: the resolver is deterministic: identical arguments give
identical results. -/
theorem spec_c9_deterministic (m : SlaveAddr) (b1 b2 : Nat) (h : b1 = b2) :
    m.addr b1 = m.addr b2 := by rw [h]

/-- Witness for C9 at the default mode and base 64. -/
theorem spec_c9_witness :
    SlaveAddr.Default.addr 64 = SlaveAddr.Default.addr 64 :=
  spec_c9_deterministic SlaveAddr.Default 64 64 rfl

/-- C10: resolving the same addressing mode twice is idempotent. -/
theorem spec_c10_idempotent (m : SlaveAddr) (base : Nat) :
    m.addr (m.addr base) = m.addr base := by
  cases m with
  | Default => rfl
  | Alternative a5 a4 a3 a2 a1 a0 =>
      rw [addr_alternative_eq, addr_alternative_eq, Nat.lor_assoc, Nat.or_self]

end Pca9685Types
